import Mathlib

/-!
Verification of the IMF exchange-rate pipeline (acquisition, validation,
batch processing) against its natural-language specification.

The Python sources are shallowly embedded: pandas DataFrames become lists of
typed rows, JSON dictionaries become association lists with last-write-wins
lookup, the filesystem becomes an association list from path strings to file
data, and floating-point arithmetic is modelled over the rationals with
explicit banker-style rounding mirroring Python's round builtin.
-/

namespace IMFPipeline

/-- One row of an exchange-rate CSV as produced by
process_xml_to_dataframe: columns Country, Currency, Date, Exchange_Rate,
Base_Currency, Timestamp.  Currency is nullable; Exchange_Rate is nullable
after pandas to_numeric with coercion (none models NaN). -/
structure Row where
  country : String
  currency : Option String
  date : String
  rate : Option ℚ
  baseCurrency : String
  timestamp : String
deriving DecidableEq, Repr

/-- Last-write-wins dictionary lookup on an association list, mirroring
Python dict semantics where later assignments overwrite earlier ones. -/
def dictLookup {α : Type} : List (String × α) → String → Option α
  | [], _ => none
  | e :: rest, k =>
    match dictLookup rest k with
    | some v => some v
    | none => if e.1 = k then some e.2 else none

theorem dictLookup_append {α : Type} (a b : List (String × α)) (k : String) :
    dictLookup (a ++ b) k =
      match dictLookup b k with
      | some v => some v
      | none => dictLookup a k := by
  induction a with
  | nil =>
      simp only [List.nil_append]
      cases h : dictLookup b k <;> simp [dictLookup, h]
  | cons e rest ih =>
      simp only [List.cons_append, dictLookup, List.append_eq]
      rw [ih]
      cases h1 : dictLookup b k <;> cases h2 : dictLookup rest k <;> simp [h1, h2]

/-- Round half to even on an integer boundary, mirroring Python's round. -/
def roundHalfEven (q : ℚ) : ℤ :=
  if q - ⌊q⌋ < 1/2 then ⌊q⌋
  else if 1/2 < q - ⌊q⌋ then ⌊q⌋ + 1
  else if 2 ∣ ⌊q⌋ then ⌊q⌋ else ⌊q⌋ + 1

/-- Python round(q, 2) over the rationals. -/
def pyRound2 (q : ℚ) : ℚ := (roundHalfEven (q * 100) : ℚ) / 100

/-- Python round(q, 4) over the rationals. -/
def pyRound4 (q : ℚ) : ℚ := (roundHalfEven (q * 10000) : ℚ) / 10000

theorem roundHalfEven_le (q : ℚ) : (roundHalfEven q : ℚ) ≤ q + 1/2 := by
  unfold roundHalfEven
  have hf : (⌊q⌋ : ℚ) ≤ q := Int.floor_le q
  split
  · linarith
  · split
    · rename_i h1 h2
      push_cast
      linarith
    · split
      · linarith
      · rename_i h1 h2 h3
        have : q - (⌊q⌋ : ℚ) = 1/2 := le_antisymm (not_lt.mp h2) (not_lt.mp h1)
        push_cast
        linarith

theorem roundHalfEven_intCast (n : ℤ) : roundHalfEven (n : ℚ) = n := by
  unfold roundHalfEven
  norm_num [Int.floor_intCast]

/-! ## Validation engine (utils/imf_data_validator.py) -/

/-- Threshold MAX_REASONABLE_RATE from utils/config.py. -/
def MAX_REASONABLE_RATE : ℚ := 100000

/-- Threshold MIN_REASONABLE_RATE from utils/config.py, 0.0001 written in
lowest terms so that comparisons reduce in the kernel. -/
def MIN_REASONABLE_RATE : ℚ := Rat.mk' 1 10000 (by norm_num) (Nat.coprime_one_left 10000)

theorem MIN_REASONABLE_RATE_val : MIN_REASONABLE_RATE = 1 / 10000 := by
  have h := Rat.num_div_den MIN_REASONABLE_RATE
  rw [show MIN_REASONABLE_RATE.num = 1 from rfl,
    show MIN_REASONABLE_RATE.den = 10000 from rfl] at h
  push_cast at h
  exact h.symm

/-- The default rate-accuracy tolerance 0.001 (0.1 percent), in lowest
terms. -/
def defaultTolerance : ℚ := Rat.mk' 1 1000 (by norm_num) (Nat.coprime_one_left 1000)

theorem defaultTolerance_val : defaultTolerance = 1 / 1000 := by
  have h := Rat.num_div_den defaultTolerance
  rw [show defaultTolerance.num = 1 from rfl,
    show defaultTolerance.den = 1000 from rfl] at h
  push_cast at h
  exact h.symm

/-- Set of country codes appearing in a DataFrame:
set(df["Country"].dropna().unique()); the Country column is non-null in
this embedding, so dropna is the identity. -/
def countrySet (df : List Row) : Finset String := (df.map Row.country).toFinset

/-- Result record of _check_coverage. -/
structure CoverageResult where
  imf_count : ℕ
  csv_count : ℕ
  coverage_pct : ℚ
  missing_from_csv : Finset String
  extra_in_csv : Finset String
deriving DecidableEq

/-- Embeds _check_coverage: intersection with the live IMF country set,
percentage over max(len(imf_countries), 1) rounded to two decimals. -/
def checkCoverage (df : List Row) (imfCountries : Finset String) : CoverageResult :=
  let localSet := countrySet df
  { imf_count := imfCountries.card
    csv_count := localSet.card
    coverage_pct :=
      pyRound2 (((localSet ∩ imfCountries).card : ℚ) /
        (max imfCountries.card 1 : ℕ) * 100)
    missing_from_csv := imfCountries \ localSet
    extra_in_csv := localSet \ imfCountries }

/-- Whitespace characters removed by Python str.strip. -/
def isSpaceChar (c : Char) : Bool :=
  c = ' ' || c = '\t' || c = '\n' || c = '\r'

/-- Python str.strip: drop leading and trailing whitespace. -/
def stripStr (s : String) : String :=
  String.mk (((s.data.dropWhile isSpaceChar).reverse.dropWhile isSpaceChar).reverse)

/-- A Currency cell counts as null when it is NaN or its stripped string
form is "None" or "" (the isna-or-isin mask of _check_null_currencies). -/
def isNullCurrency (c : Option String) : Bool :=
  match c with
  | none => true
  | some s => stripStr s = "None" || stripStr s = ""

/-- Embeds _check_null_currencies: rows with a null currency whose country
is not on the aggregate-code exemption list.  The exemption list
IMF_AGGREGATE_CODES is imported by the validator but absent from
utils/config.py, so it is kept as an explicit parameter here. -/
def checkNullCurrencies (df : List Row) (aggregateCodes : Finset String) : ℕ :=
  (df.filter (fun r =>
    isNullCurrency r.currency && decide (r.country ∉ aggregateCodes))).length

/-- Embeds _check_duplicates: rows whose (Country, Date) pair occurs more
than once (pandas duplicated with keep=False marks every row of a
duplicated group). -/
def checkDuplicates (df : List Row) : ℕ :=
  (df.filter (fun r =>
    2 ≤ (df.filter (fun s =>
      decide (s.country = r.country) && decide (s.date = r.date))).length)).length

/-- Result record of _check_anomalous_rates (counts only; the itemised
record lists have the same emptiness as the counts). -/
structure AnomalousResult where
  null_count : ℕ
  zero_or_neg_count : ℕ
  implausibly_large_count : ℕ
  implausibly_small_count : ℕ
deriving DecidableEq, Repr

/-- Embeds _check_anomalous_rates.  Pandas comparisons against NaN are
false, so a none rate is counted only by null_count. -/
def checkAnomalousRates (df : List Row) : AnomalousResult :=
  { null_count := (df.filter (fun r => decide (r.rate = none))).length
    zero_or_neg_count :=
      (df.filter (fun r =>
        match r.rate with | some v => decide (v ≤ 0) | none => false)).length
    implausibly_large_count :=
      (df.filter (fun r =>
        match r.rate with
        | some v => decide (MAX_REASONABLE_RATE < v)
        | none => false)).length
    implausibly_small_count :=
      (df.filter (fun r =>
        match r.rate with
        | some v => decide (0 < v ∧ v < MIN_REASONABLE_RATE)
        | none => false)).length }

/-- Embeds _check_date_coverage: rows whose Date differs from the period
the dataset claims to represent. -/
def checkDateCoverage (df : List Row) (expectedYm : String) : ℕ :=
  (df.filter (fun r => decide (r.date ≠ expectedYm))).length

/-- Result record of _check_rate_accuracy for the non-skipped case. -/
structure RateAccuracy where
  checked : ℕ
  matchCount : ℕ
  mismatchList : List (String × Option ℚ × ℚ)
deriving DecidableEq, Repr

/-- One row of the _check_rate_accuracy loop: the row is skipped when its
country has no live IMF rate; otherwise it is a match exactly when either
both rates are zero, or the live rate is nonzero and the relative
difference is within tolerance.  A NaN stored rate propagates through the
float comparison as a mismatch. -/
def rateRowStep (imfRates : List (String × ℚ)) (tol : ℚ) (acc : RateAccuracy)
    (r : Row) : RateAccuracy :=
  match dictLookup imfRates r.country with
  | none => acc
  | some imfRate =>
    if imfRate = 0 ∧ r.rate = some 0 then
      { acc with checked := acc.checked + 1, matchCount := acc.matchCount + 1 }
    else if imfRate = 0 then
      { acc with checked := acc.checked + 1,
                 mismatchList := acc.mismatchList ++ [(r.country, r.rate, imfRate)] }
    else
      match r.rate with
      | some v =>
          if |v - imfRate| / |imfRate| ≤ tol then
            { acc with checked := acc.checked + 1, matchCount := acc.matchCount + 1 }
          else
            { acc with checked := acc.checked + 1,
                       mismatchList := acc.mismatchList ++ [(r.country, some v, imfRate)] }
      | none =>
          { acc with checked := acc.checked + 1,
                     mismatchList := acc.mismatchList ++ [(r.country, none, imfRate)] }

/-- Embeds _check_rate_accuracy; none models the skipped report returned
when the live IMF rates are unavailable. -/
def checkRateAccuracy (df : List Row) (imfRates : List (String × ℚ))
    (tol : ℚ) : Option RateAccuracy :=
  if imfRates = [] then none
  else some (df.foldl (rateRowStep imfRates tol) ⟨0, 0, []⟩)

/-- accuracy_pct of a rate-accuracy result:
round(matches / max(checked, 1) * 100, 2). -/
def RateAccuracy.accuracyPct (ra : RateAccuracy) : ℚ :=
  pyRound2 ((ra.matchCount : ℚ) / (max ra.checked 1 : ℕ) * 100)

theorem rateRowStep_checked (imfRates : List (String × ℚ)) (tol : ℚ)
    (acc : RateAccuracy) (r : Row)
    (h : acc.checked = acc.matchCount + acc.mismatchList.length) :
    (rateRowStep imfRates tol acc r).checked =
      (rateRowStep imfRates tol acc r).matchCount +
        (rateRowStep imfRates tol acc r).mismatchList.length := by
  unfold rateRowStep
  cases dictLookup imfRates r.country with
  | none => exact h
  | some imfRate =>
      by_cases h1 : imfRate = 0 ∧ r.rate = some 0
      · simp [h1, h]; omega
      · by_cases h2 : imfRate = 0
        · by_cases h3 : r.rate = some 0 <;> simp [h1, h2, h3, h] <;> omega
        · cases hr : r.rate with
          | some v =>
              by_cases h3 : |v - imfRate| / |imfRate| ≤ tol <;>
                simp [h1, h2, h3, h] <;> omega
          | none => simp [h1, h2, h]; omega

/-- Every checked row of _check_rate_accuracy is either a match or a
mismatch. -/
theorem checkRateAccuracy_partition (df : List Row) (imfRates : List (String × ℚ))
    (tol : ℚ) (ra : RateAccuracy)
    (h : checkRateAccuracy df imfRates tol = some ra) :
    ra.checked = ra.matchCount + ra.mismatchList.length := by
  unfold checkRateAccuracy at h
  by_cases he : imfRates = []
  · simp [he] at h
  · simp only [he, if_false] at h
    have key : ∀ (l : List Row) (acc : RateAccuracy),
        acc.checked = acc.matchCount + acc.mismatchList.length →
        (l.foldl (rateRowStep imfRates tol) acc).checked =
          (l.foldl (rateRowStep imfRates tol) acc).matchCount +
            (l.foldl (rateRowStep imfRates tol) acc).mismatchList.length := by
      intro l
      induction l with
      | nil => intro acc hacc; simpa using hacc
      | cons r rest ih =>
          intro acc hacc
          exact ih _ (rateRowStep_checked imfRates tol acc r hacc)
    have := key df ⟨0, 0, []⟩ rfl
    rw [Option.some_inj] at h
    rw [← h]
    exact this

/-- A full single-month validation report (build_report).  The
month-on-month check reads the previous month's CSV from disk, so its
result enters as the parameter momLargeMovers (none models the skipped
case). -/
structure ValidationReport where
  total_rows : ℕ
  overall_status : String
  issues : List String
  mom_note : Option String
  coverage : CoverageResult
  null_currency_count : ℕ
  duplicate_count : ℕ
  anomalous : AnomalousResult
  date_wrong_count : ℕ
  rate_accuracy : Option RateAccuracy

/-- Embeds build_report.  The structural column check is represented by
the typed Row input; the rate-accuracy check runs only when
includeRateCheck is set, against the live rates imfRates (an empty live
dict yields the skipped result).  Issues are appended in source order and
overall_status is PASS exactly when no issue was appended; the
month-on-month result feeds only mom_note. -/
def reportIssues (df : List Row) (imfCountries : Finset String)
    (expectedYm : String) (aggregateCodes : Finset String)
    (ra : Option RateAccuracy) : List String :=
  (if (checkCoverage df imfCountries).missing_from_csv ≠ ∅ then
    [toString (checkCoverage df imfCountries).missing_from_csv.card ++
      " countries present in IMF but missing from CSV"]
   else []) ++
  (if checkNullCurrencies df aggregateCodes ≠ 0 then
    [toString (checkNullCurrencies df aggregateCodes) ++ " rows have no currency code"]
   else []) ++
  (if checkDuplicates df ≠ 0 then
    [toString (checkDuplicates df) ++ " duplicate Country+Date rows"] else []) ++
  (if (checkAnomalousRates df).null_count ≠ 0 then
    [toString (checkAnomalousRates df).null_count ++ " null exchange rates"] else []) ++
  (if (checkAnomalousRates df).zero_or_neg_count ≠ 0 then
    [toString (checkAnomalousRates df).zero_or_neg_count ++ " zero/negative rates"]
   else []) ++
  (if checkDateCoverage df expectedYm ≠ 0 then
    [toString (checkDateCoverage df expectedYm) ++ " rows with wrong date stamp"]
   else []) ++
  (match ra with
   | some r =>
      if 0 < r.mismatchList.length then
        [toString r.mismatchList.length ++ " rate mismatches vs live IMF data"]
      else []
   | none => [])

def build_report (df : List Row) (imfCountries : Finset String)
    (expectedYm : String) (aggregateCodes : Finset String)
    (includeRateCheck : Bool) (imfRates : List (String × ℚ))
    (momLargeMovers : Option ℕ) : ValidationReport :=
  let cov := checkCoverage df imfCountries
  let nullCur := checkNullCurrencies df aggregateCodes
  let dup := checkDuplicates df
  let an := checkAnomalousRates df
  let dateWrong := checkDateCoverage df expectedYm
  let ra := if includeRateCheck then checkRateAccuracy df imfRates defaultTolerance else none
  let issues : List String := reportIssues df imfCountries expectedYm aggregateCodes ra
  { total_rows := df.length
    overall_status := if issues = [] then "PASS" else "FAIL"
    issues := issues
    mom_note :=
      match momLargeMovers with
      | some n => if 0 < n then some (toString n ++ " currencies moved >30% MoM") else none
      | none => none
    coverage := cov
    null_currency_count := nullCur
    duplicate_count := dup
    anomalous := an
    date_wrong_count := dateWrong
    rate_accuracy := ra }

/-! ## Historical cross-validation (cross_validate_historical) -/

/-- One month of input to cross-validation: the stored CSV failed to load,
or it loaded together with the live IMF rates fetched for that month (an
empty dict models a failed IMF fetch). -/
inductive MonthInput where
  | csvError (ym : String)
  | data (ym : String) (df : List Row) (imfRates : List (String × ℚ))

/-- Per-month validated accuracy results, in loop order: a month
contributes exactly when its CSV loads and its live fetch returns data. -/
def validatedResults (months : List MonthInput) (tol : ℚ) : List RateAccuracy :=
  months.filterMap (fun m =>
    match m with
    | .csvError _ => none
    | .data _ df imfRates => checkRateAccuracy df imfRates tol)

/-- Months whose live IMF fetch returned nothing (failed_fetches). -/
def failedFetches (months : List MonthInput) : List String :=
  months.filterMap (fun m =>
    match m with
    | .csvError _ => none
    | .data ym _ imfRates => if imfRates = [] then some ym else none)

/-- Summary block of the cross-validation report. -/
structure CrossValSummary where
  months_validated : ℕ
  months_perfect : ℕ
  months_with_mismatches : ℕ
  fetch_failures : ℕ
  total_rates_checked : ℕ
  total_matches : ℕ
  total_mismatches : ℕ
  overall_accuracy_pct : ℚ
  overall_status : String

/-- Embeds the summary construction of cross_validate_historical: totals
are accumulated over validated months only, the overall accuracy is
round(total_matches / max(total_checked, 1) * 100, 4), and the status is
PASS exactly when there is no mismatch and no failed fetch. -/
def crossValidate (months : List MonthInput) (tol : ℚ) : CrossValSummary :=
  let vs := validatedResults months tol
  let ff := failedFetches months
  let totalChecked := (vs.map RateAccuracy.checked).sum
  let totalMatches := (vs.map RateAccuracy.matchCount).sum
  let totalMismatches := (vs.map (fun r => r.mismatchList.length)).sum
  { months_validated := vs.length
    months_perfect := (vs.filter (fun r => r.mismatchList.length = 0)).length
    months_with_mismatches := (vs.filter (fun r => 0 < r.mismatchList.length)).length
    fetch_failures := ff.length
    total_rates_checked := totalChecked
    total_matches := totalMatches
    total_mismatches := totalMismatches
    overall_accuracy_pct := pyRound4 ((totalMatches : ℚ) / (max totalChecked 1 : ℕ) * 100)
    overall_status := if totalMismatches = 0 ∧ ff = [] then "PASS" else "REVIEW" }

/-- Totals of a cross-validation run partition into matches and
mismatches, month by month. -/
theorem sum_checked_partition (l : List RateAccuracy)
    (h : ∀ ra ∈ l, ra.checked = ra.matchCount + ra.mismatchList.length) :
    (l.map RateAccuracy.checked).sum =
      (l.map RateAccuracy.matchCount).sum +
        (l.map (fun r => r.mismatchList.length)).sum := by
  induction l with
  | nil => simp
  | cons a rest ih =>
      have ha := h a (List.mem_cons_self a rest)
      have hr := ih (fun x hx => h x (List.mem_cons_of_mem a hx))
      simp only [List.map_cons, List.sum_cons, ha, hr]
      omega

theorem crossValidate_totals (months : List MonthInput) (tol : ℚ) :
    (crossValidate months tol).total_rates_checked =
      (crossValidate months tol).total_matches +
        (crossValidate months tol).total_mismatches := by
  have hmem : ∀ ra ∈ validatedResults months tol,
      ra.checked = ra.matchCount + ra.mismatchList.length := by
    intro ra hra
    unfold validatedResults at hra
    rw [List.mem_filterMap] at hra
    obtain ⟨m, _, hm⟩ := hra
    cases m with
    | csvError ym => simp at hm
    | data ym df imfRates => exact checkRateAccuracy_partition df imfRates tol ra hm
  exact sum_checked_partition _ hmem

/-! ## Filesystem model -/

/-- A manifest as written by batch_prepare.create_batch_manifest and read
by core_processor: files holds the partners, units and forex paths. -/
structure Manifest where
  batch_id : String
  creation_timestamp : String
  status : String
  partners : String
  units : String
  forex : String
  raw_data : List String
deriving DecidableEq, Repr

/-- Contents of a file in the model filesystem. -/
inductive FileData where
  | bytes (s : String)
  | csv (rows : List Row)
  | manifestFile (m : Manifest)
  | processed (src : FileData) (ts : String)
  | errLog (batch ts err : String)
  | successLog (batch ts : String)
deriving DecidableEq

/-- The filesystem: an association list from paths to file data; the most
recent write for a path is the head-most entry. -/
def FS : Type := List (String × FileData)

/-- Look up a path; the most recent (head-most) entry wins. -/
def FS.lookup : FS → String → Option FileData
  | [], _ => none
  | e :: rest, p => if e.1 = p then some e.2 else FS.lookup rest p

/-- Write (create or overwrite) a file. -/
def FS.write (fs : FS) (p : String) (d : FileData) : FS := (p, d) :: fs

/-- Delete a file (os.remove; removing a missing path is a no-op here,
mirroring the existence guard in _remove_files). -/
def FS.remove : FS → String → FS
  | [], _ => []
  | e :: rest, p => if e.1 = p then FS.remove rest p else e :: FS.remove rest p

theorem FS.lookup_write (fs : FS) (p q : String) (d : FileData) :
    (fs.write p d).lookup q = if q = p then some d else fs.lookup q := by
  by_cases h : q = p
  · subst h; simp [FS.write, FS.lookup]
  · have h2 : ¬ (p = q) := fun hc => h hc.symm
    simp [FS.write, FS.lookup, h, h2]

theorem FS.lookup_remove (fs : FS) (p q : String) :
    (fs.remove p).lookup q = if q = p then none else fs.lookup q := by
  induction fs with
  | nil => simp [FS.remove, FS.lookup]
  | cons e rest ih =>
      by_cases hep : e.1 = p
      · have hlhs : FS.remove (e :: rest) p = FS.remove rest p := by
          simp [FS.remove, hep]
        rw [hlhs, ih]
        by_cases hq : q = p
        · simp [hq]
        · have heq : ¬ (e.1 = q) := fun hc => hq (by rw [← hc, hep])
          simp [FS.lookup, hq, heq]
      · have hlhs : FS.remove (e :: rest) p = e :: FS.remove rest p := by
          simp [FS.remove, hep]
        rw [hlhs]
        by_cases heq : e.1 = q
        · have hq : ¬ (q = p) := fun hc => hep (by rw [heq, hc])
          simp [FS.lookup, heq, hq]
        · simp [FS.lookup, heq, ih]

/-- Directory of the batch-scoped archive folder (ARCHIVE_DIR / batch_id). -/
def archiveDir (batchId : String) : String := "4_archive/" ++ batchId

/-- Directory of the batch-scoped error (quarantine) folder. -/
def errorDir (batchId : String) : String := "5_error/" ++ batchId

/-- Path of the structured error log written by _write_error_log. -/
def errorLogPath (batchId : String) : String := "6_logs/" ++ batchId ++ "_error.log"

/-- Path of the success log. -/
def successLogPath (batchId : String) : String := "6_logs/" ++ batchId ++ "_success.log"

/-- Basename of a path (Path(src).name): the suffix after the last
slash. -/
def baseName (p : String) : String :=
  String.mk ((p.data.reverse.takeWhile (fun c => c != '/')).reverse)

/-- Destination of a copy of src into the folder dest. -/
def destPath (dest src : String) : String := dest ++ "/" ++ baseName src

/-! ## Batch processor (utils/core_processor.py) -/

/-- Embeds _copy_to_folder: copy each listed path into the destination
folder under its basename, silently skipping paths that do not exist at
the moment their turn comes. -/
def copyToFolder (files : List String) (dest : String) (fs : FS) : FS :=
  files.foldl (fun acc src =>
    match acc.lookup src with
    | some d => acc.write (destPath dest src) d
    | none => acc) fs

/-- Embeds _remove_files: delete each listed path from its original
location (missing paths are skipped). -/
def removeFiles (files : List String) (fs : FS) : FS :=
  files.foldl FS.remove fs

/-- The file list assembled by run_core_processing before the try block:
the manifest path itself, every value of the manifest's files dict, and
every raw_data entry that exists on disk. -/
def allFiles (manifestPath : String) (m : Manifest) (fs : FS) : List String :=
  manifestPath :: ([m.partners, m.units, m.forex] ++
    m.raw_data.filter (fun f => (fs.lookup f).isSome))

/-- Path of the processed output artifact inside the batch archive. -/
def outputPath (batchId : String) : String :=
  archiveDir batchId ++ "/processed_output_" ++ batchId ++ ".csv"

/-- Embeds _transform_data: raises FileNotFoundError when the manifest's
forex file is missing, otherwise produces the processed output (the
partner merge guards its own errors and never raises). -/
def transformData (m : Manifest) (fs : FS) (ts : String) : Except String FileData :=
  match fs.lookup m.forex with
  | none => .error ("Forex file not found: " ++ m.forex)
  | some d => .ok (.processed d ts)

/-- Embeds run_core_processing.  The manifest is loaded from the
filesystem (a load failure raises before the try block, leaving the
filesystem untouched).  On success: write the output artifact, copy every
referenced file into the batch archive, then delete the originals and
write a success log.  On a transform error: copy every referenced file
into the batch error folder, write the structured error log, and re-raise
the error alongside the resulting filesystem. -/
def runCoreProcessing (manifestPath : String) (fs : FS) (ts : String) :
    Except (String × FS) FS :=
  match fs.lookup manifestPath with
  | some (.manifestFile m) =>
      let batchId := m.batch_id
      let files := allFiles manifestPath m fs
      match transformData m fs ts with
      | .ok out =>
          let fs1 := fs.write (outputPath batchId) out
          let fs2 := copyToFolder files (archiveDir batchId) fs1
          let fs3 := removeFiles files fs2
          let fs4 := fs3.write (successLogPath batchId) (.successLog batchId ts)
          .ok fs4
      | .error e =>
          let fs1 := copyToFolder files (errorDir batchId) fs
          let fs2 := fs1.write (errorLogPath batchId) (.errLog batchId ts e)
          .error (e, fs2)
  | _ => .error ("Could not load manifest: " ++ manifestPath, fs)

/-- Copying never deletes: an existing path still resolves to some data
after _copy_to_folder runs (possibly overwritten by a copy). -/
theorem copyToFolder_isSome (files : List String) (dest : String) (fs : FS)
    (p : String) (h : (fs.lookup p).isSome) :
    ((copyToFolder files dest fs).lookup p).isSome := by
  induction files generalizing fs with
  | nil => exact h
  | cons a rest ih =>
      unfold copyToFolder
      simp only [List.foldl_cons]
      apply ih
      cases hl : fs.lookup a with
      | none => simpa [hl] using h
      | some d =>
          simp only [hl]
          rw [FS.lookup_write]
          by_cases hp : p = destPath dest a
          · simp [hp]
          · simpa [hp] using h

/-- A path that is not a copy destination is untouched by _copy_to_folder. -/
theorem copyToFolder_lookup_other (files : List String) (dest : String) (fs : FS)
    (p : String) (h : ∀ f ∈ files, p ≠ destPath dest f) :
    (copyToFolder files dest fs).lookup p = fs.lookup p := by
  induction files generalizing fs with
  | nil => rfl
  | cons a rest ih =>
      unfold copyToFolder
      simp only [List.foldl_cons]
      have hrest : ∀ f ∈ rest, p ≠ destPath dest f :=
        fun f hf => h f (List.mem_cons_of_mem a hf)
      cases hl : fs.lookup a with
      | none => simpa [hl] using ih fs hrest
      | some d =>
          simp only [hl]
          have := ih (fs.write (destPath dest a) d) hrest
          unfold copyToFolder at this
          rw [this, FS.lookup_write, if_neg (h a (List.mem_cons_self a rest))]

/-- An existing source file gets a copy in the destination folder,
provided no source path coincides with a copy destination (so no copy is
clobbered by a later source read and no source was already a
destination). -/
theorem copyToFolder_copies (files : List String) (dest : String) (fs : FS)
    (f : String) (hf : f ∈ files)
    (hdisj : ∀ a ∈ files, ∀ b ∈ files, a ≠ destPath dest b)
    (hex : (fs.lookup f).isSome) :
    ((copyToFolder files dest fs).lookup (destPath dest f)).isSome := by
  induction files generalizing fs with
  | nil => cases hf
  | cons a rest ih =>
      unfold copyToFolder
      simp only [List.foldl_cons]
      rcases List.mem_cons.mp hf with hfa | hfr
      · subst hfa
        cases hl : fs.lookup f with
        | none => simp [hl] at hex
        | some d =>
            simp only [hl]
            have : ((fs.write (destPath dest f) d).lookup (destPath dest f)).isSome := by
              rw [FS.lookup_write]; simp
            exact copyToFolder_isSome rest dest _ _ this
      · have hdisj2 : ∀ x ∈ rest, ∀ y ∈ rest, x ≠ destPath dest y :=
          fun x hx y hy =>
            hdisj x (List.mem_cons_of_mem a hx) y (List.mem_cons_of_mem a hy)
        cases hl : fs.lookup a with
        | none =>
            apply ih fs hfr hdisj2
            simpa using hex
        | some d =>
            apply ih _ hfr hdisj2
            rw [FS.lookup_write,
              if_neg (hdisj f hf a (List.mem_cons_self a rest))]
            exact hex

/-- _remove_files as a pointwise lookup equation. -/
theorem removeFiles_lookup (files : List String) (fs : FS) (p : String) :
    (removeFiles files fs).lookup p =
      if p ∈ files then none else fs.lookup p := by
  induction files generalizing fs with
  | nil => simp [removeFiles]
  | cons a rest ih =>
      unfold removeFiles
      simp only [List.foldl_cons]
      have := ih (fs.remove a)
      unfold removeFiles at this
      rw [this, FS.lookup_remove]
      by_cases hp : p ∈ rest
      · simp [hp]
      · by_cases hpa : p = a
        · simp [hp, hpa]
        · simp [hp, hpa]

/-! ## Historical fetch script (fetch_historical_rates_fixed.py) -/

/-- Run counters and per-run country tracking of the module-level fetch
loop in fetch_historical_rates_fixed.py. -/
structure HistRunState where
  fs : FS
  suspiciousMonths : List String
  monthsFetched : ℕ
  monthsRefetched : ℕ
  monthsFailed : ℕ
  currentRunCountries : List (String × List String)

/-- Embeds the body of the fetch branch of the month loop (the code run
after get_currency_data_from_imf and process_xml_to_dataframe produced
the DataFrame df for one month): an empty frame counts as failed; more
than 50 countries saves the file (backing up any existing one first) and
records the month's countries; 50 or fewer countries appends the month to
suspicious_months and counts it as failed, writing nothing. -/
def handleFetchedData (dateStr monthKey filepath : String) (df : List Row)
    (st : HistRunState) : HistRunState :=
  if df = [] then { st with monthsFailed := st.monthsFailed + 1 }
  else
    let newCountries := countrySet df
    if 50 < newCountries.card then
      let backedUp : HistRunState :=
        match st.fs.lookup filepath with
        | some old =>
            { st with
                fs := (st.fs.remove filepath).write (filepath ++ ".bak") old
                monthsRefetched := st.monthsRefetched + 1 }
        | none => { st with monthsFetched := st.monthsFetched + 1 }
      { backedUp with
          fs := backedUp.fs.write filepath (.csv df)
          currentRunCountries :=
            backedUp.currentRunCountries ++ [(monthKey, df.map Row.country)] }
    else
      { st with
          suspiciousMonths := st.suspiciousMonths ++ [dateStr]
          monthsFailed := st.monthsFailed + 1 }

/-! ## Country presence tracker -/

/-- The persisted country-presence ledger: period key to the set of
countries ever recorded for it (the JSON count field always equals the
stored set's size and is omitted). -/
abbrev Tracker : Type := List (String × Finset String)

/-- Countries recorded for a period key,
tracker.get(month_key, {}).get("countries", []) as a set. -/
def Tracker.get (t : Tracker) (k : String) : Finset String :=
  match dictLookup t k with
  | some s => s
  | none => ∅

/-- Membership of a period key in the tracker dict. -/
def Tracker.hasKey (t : Tracker) (k : String) : Bool :=
  (dictLookup t k).isSome

/-- Assign a period key (Python dict assignment; appended so the last
write wins under dictLookup). -/
def Tracker.set (t : Tracker) (k : String) (v : Finset String) : Tracker :=
  t ++ [(k, v)]

/-- Embeds the merge loop at the end of fetch_historical_rates_fixed.py:
a first-seen period key is inserted as observed, an already-known one is
replaced by the union of the old and new sets. -/
def mergeTracker (t : Tracker) (runCountries : List (String × Finset String)) :
    Tracker :=
  runCountries.foldl (fun acc kc =>
    if acc.hasKey kc.1 then acc.set kc.1 (acc.get kc.1 ∪ kc.2)
    else acc.set kc.1 kc.2) t

/-- Embeds _update_tracker_from_csvs of flows/historical_backfill_flow.py:
for each scanned CSV, the period's entry is overwritten with exactly the
CSV's country set whenever that set differs from the recorded one. -/
def updateTrackerFromCsvs (t : Tracker) (csvs : List (String × List Row)) :
    Tracker :=
  csvs.foldl (fun acc kdf =>
    let newCountries := countrySet kdf.2
    let existing := acc.get kdf.1
    if newCountries ≠ existing then acc.set kdf.1 newCountries else acc) t

theorem Tracker.get_set (t : Tracker) (k k2 : String) (v : Finset String) :
    (t.set k v).get k2 = if k2 = k then v else t.get k2 := by
  unfold Tracker.set Tracker.get
  rw [dictLookup_append]
  by_cases h : k2 = k
  · subst h; simp [dictLookup]
  · have h2 : ¬ (k = k2) := fun hc => h hc.symm
    simp only [dictLookup, h2, if_false]
    cases dictLookup t k2 <;> simp [h]

/-- One step of the merge loop can only grow the set stored at any key. -/
theorem mergeTracker_step_mono (acc : Tracker) (kc : String × Finset String)
    (k : String) :
    acc.get k ⊆
      (if acc.hasKey kc.1 then acc.set kc.1 (acc.get kc.1 ∪ kc.2)
       else acc.set kc.1 kc.2).get k := by
  by_cases hkey : acc.hasKey kc.1
  · rw [if_pos hkey, Tracker.get_set]
    by_cases hk : k = kc.1
    · rw [if_pos hk, hk]
      exact Finset.subset_union_left
    · rw [if_neg hk]
  · rw [if_neg hkey, Tracker.get_set]
    by_cases hk : k = kc.1
    · rw [if_pos hk]
      have hnone : dictLookup acc k = none := by
        rw [hk]
        unfold Tracker.hasKey at hkey
        exact Option.not_isSome_iff_eq_none.mp (by simpa using hkey)
      have hempty : acc.get k = ∅ := by unfold Tracker.get; rw [hnone]
      rw [hempty]
      exact Finset.empty_subset _
    · rw [if_neg hk]

/-- The merge loop of fetch_historical_rates_fixed.py is monotone: after
merging a run's observations, every period's recorded country set
contains everything it contained before. -/
theorem mergeTracker_mono (t : Tracker)
    (runCountries : List (String × Finset String)) (k : String) :
    t.get k ⊆ (mergeTracker t runCountries).get k := by
  induction runCountries generalizing t with
  | nil => exact fun x hx => hx
  | cons kc rest ih =>
      unfold mergeTracker
      simp only [List.foldl_cons]
      refine (mergeTracker_step_mono t kc k).trans ?_
      exact ih _


/-! ## Currency code resolver (utils/exchange_rate_fetcher.py) -/

/-- SPECIAL_CURRENCY_OVERRIDES from utils/config.py: static exception
table consulted before the cache and any fresh lookup. -/
def SPECIAL_CURRENCY_OVERRIDES : List (String × String) :=
  [("CUW", "XCG"), ("SXM", "XCG"), ("G163", "EUR")]

/-- Dict lookup in the override table. -/
def overrideLookup (code : String) : Option String :=
  dictLookup SPECIAL_CURRENCY_OVERRIDES code

/-- The persisted currency cache: country code to currency code or null
(null is the explicit unresolved marker). -/
abbrev CurrencyCache : Type := List (String × Option String)

/-- An attempt oracle for the REST Countries lookup of one code: for each
attempt index, either a currency code or a failure. -/
abbrev AttemptOracle : Type := ℕ → Option String

/-- Embeds _fetch_currency_from_api: up to 3 attempts; after each failed
attempt except the last the thread sleeps 1.5 to the power of the attempt
index.  Returns the first successful currency (or none) together with the
backoff sleeps performed. -/
def fetchCurrencyFromApi (att : AttemptOracle) : Option String × List ℚ :=
  match att 0 with
  | some c => (some c, [])
  | none =>
    match att 1 with
    | some c => (some c, [1])
    | none =>
      match att 2 with
      | some c => (some c, [1, 3/2])
      | none => (none, [1, 3/2])

/-- First pass of resolve_currency_codes over the requested codes: the
override table wins, then cache membership, and codes in neither are
queued for fetching.  Returns (resolved entries, to_fetch). -/
def firstPass (cache : CurrencyCache) :
    List String → List (String × Option String) × List String
  | [] => ([], [])
  | code :: rest =>
    match overrideLookup code with
    | some v =>
        let r := firstPass cache rest
        ((code, some v) :: r.1, r.2)
    | none =>
        match dictLookup cache code with
        | some v =>
            let r := firstPass cache rest
            ((code, v) :: r.1, r.2)
        | none =>
            let r := firstPass cache rest
            (r.1, code :: r.2)

/-- Results of the parallel fetch batch, one entry per queued code (the
oracle is deterministic per code, so thread completion order does not
change any entry). -/
def fetchPass (api : String → AttemptOracle) :
    List String → List (String × Option String)
  | [] => []
  | code :: rest => (code, (fetchCurrencyFromApi (api code)).1) :: fetchPass api rest

/-- Outcome of resolve_currency_codes: the result mapping, the codes that
were sent to the external lookup, the cache afterwards, and whether the
cache file was flushed. -/
structure ResolveOutcome where
  result : List (String × Option String)
  toFetch : List String
  cache : CurrencyCache
  flushed : Bool

/-- Embeds resolve_currency_codes: override table first, then cache
membership; the remaining codes are fetched and every fetch result
(successful or unresolved) is written into the cache, which is then
flushed once for the whole batch. -/
def resolveCurrencyCodes (codes : List String) (cache : CurrencyCache)
    (api : String → AttemptOracle) : ResolveOutcome :=
  let fp := firstPass cache codes
  if fp.2 = [] then ⟨fp.1, [], cache, false⟩
  else ⟨fp.1 ++ fetchPass api fp.2, fp.2, cache ++ fetchPass api fp.2, true⟩

theorem firstPass_toFetch_mem (cache : CurrencyCache) (codes : List String)
    (code : String) :
    code ∈ (firstPass cache codes).2 ↔
      code ∈ codes ∧ overrideLookup code = none ∧
        dictLookup cache code = none := by
  induction codes with
  | nil => simp [firstPass]
  | cons a rest ih =>
      unfold firstPass
      cases ho : overrideLookup a with
      | some v =>
          simp only [ih, List.mem_cons]
          constructor
          · rintro ⟨h1, h2, h3⟩
            exact ⟨Or.inr h1, h2, h3⟩
          · rintro ⟨h1 | h1, h2, h3⟩
            · rw [h1, ho] at h2; cases h2
            · exact ⟨h1, h2, h3⟩
      | none =>
          cases hc : dictLookup cache a with
          | some v =>
              simp only [ih, List.mem_cons]
              constructor
              · rintro ⟨h1, h2, h3⟩
                exact ⟨Or.inr h1, h2, h3⟩
              · rintro ⟨h1 | h1, h2, h3⟩
                · rw [h1, hc] at h3; cases h3
                · exact ⟨h1, h2, h3⟩
          | none =>
              simp only [List.mem_cons, ih]
              constructor
              · rintro (h1 | ⟨h1, h2, h3⟩)
                · subst h1; exact ⟨Or.inl rfl, ho, hc⟩
                · exact ⟨Or.inr h1, h2, h3⟩
              · rintro ⟨h1 | h1, h2, h3⟩
                · exact Or.inl h1
                · exact Or.inr ⟨h1, h2, h3⟩

theorem firstPass_result_mem (cache : CurrencyCache) (codes : List String)
    (code : String) (w : Option String) :
    (code, w) ∈ (firstPass cache codes).1 ↔
      code ∈ codes ∧
        ((∃ v, overrideLookup code = some v ∧ w = some v) ∨
         (overrideLookup code = none ∧ dictLookup cache code = some w)) := by
  induction codes with
  | nil => simp [firstPass]
  | cons a rest ih =>
      unfold firstPass
      cases ho : overrideLookup a with
      | some v =>
          simp only [List.mem_cons, ih, Prod.mk.injEq]
          constructor
          · rintro (⟨h1, h2⟩ | ⟨h1, h2⟩)
            · subst h1; subst h2
              exact ⟨Or.inl rfl, Or.inl ⟨v, ho, rfl⟩⟩
            · exact ⟨Or.inr h1, h2⟩
          · rintro ⟨h1 | h1, h2⟩
            · subst h1
              rcases h2 with ⟨u, hu, hw⟩ | ⟨h3, _⟩
              · rw [ho] at hu
                exact Or.inl ⟨rfl, by rw [hw, Option.some_inj.mp hu]⟩
              · rw [ho] at h3; cases h3
            · exact Or.inr ⟨h1, h2⟩
      | none =>
          cases hc : dictLookup cache a with
          | some v =>
              simp only [List.mem_cons, ih, Prod.mk.injEq]
              constructor
              · rintro (⟨h1, h2⟩ | ⟨h1, h2⟩)
                · subst h1; subst h2
                  exact ⟨Or.inl rfl, Or.inr ⟨ho, hc⟩⟩
                · exact ⟨Or.inr h1, h2⟩
              · rintro ⟨h1 | h1, h2⟩
                · subst h1
                  rcases h2 with ⟨u, hu, _⟩ | ⟨_, h3⟩
                  · rw [ho] at hu; cases hu
                  · rw [hc] at h3
                    exact Or.inl ⟨rfl, (Option.some_inj.mp h3).symm⟩
                · exact Or.inr ⟨h1, h2⟩
          | none =>
              simp only [List.mem_cons, ih]
              constructor
              · rintro ⟨h1, h2⟩
                exact ⟨Or.inr h1, h2⟩
              · rintro ⟨h1 | h1, h2⟩
                · subst h1
                  rcases h2 with ⟨u, hu, _⟩ | ⟨_, h3⟩
                  · rw [ho] at hu; cases hu
                  · rw [hc] at h3; cases h3
                · exact ⟨h1, h2⟩

theorem fetchPass_mem (api : String → AttemptOracle) (l : List String)
    (code : String) (w : Option String) :
    (code, w) ∈ fetchPass api l ↔
      code ∈ l ∧ w = (fetchCurrencyFromApi (api code)).1 := by
  induction l with
  | nil => simp [fetchPass]
  | cons a rest ih =>
      unfold fetchPass
      simp only [List.mem_cons, ih, Prod.mk.injEq]
      constructor
      · rintro (⟨h1, h2⟩ | ⟨h1, h2⟩)
        · subst h1; exact ⟨Or.inl rfl, h2⟩
        · exact ⟨Or.inr h1, h2⟩
      · rintro ⟨h1 | h1, h2⟩
        · subst h1; exact Or.inl ⟨rfl, h2⟩
        · exact Or.inr ⟨h1, h2⟩

theorem dictLookup_fetchPass_not_mem (api : String → AttemptOracle)
    (l : List String) (code : String) (h : code ∉ l) :
    dictLookup (fetchPass api l) code = none := by
  induction l with
  | nil => rfl
  | cons a rest ih =>
      unfold fetchPass
      have ha : ¬ (a = code) := fun hc => h (hc ▸ List.mem_cons_self a rest)
      have hr : code ∉ rest := fun hc => h (List.mem_cons_of_mem a hc)
      simp [dictLookup, ih hr, ha]

theorem dictLookup_fetchPass_mem (api : String → AttemptOracle)
    (l : List String) (code : String) (h : code ∈ l) :
    dictLookup (fetchPass api l) code =
      some ((fetchCurrencyFromApi (api code)).1) := by
  induction l with
  | nil => cases h
  | cons a rest ih =>
      unfold fetchPass
      by_cases hr : code ∈ rest
      · simp [dictLookup, ih hr]
      · have ha : a = code := by
          rcases List.mem_cons.mp h with h1 | h1
          · exact h1.symm
          · exact absurd h1 hr
        simp [dictLookup, dictLookup_fetchPass_not_mem api rest code hr, ha]

/-! ## Acquisition entry points (fetch_rates_for_month / fetch_rates_for_range) -/

/-- year_month_api.replace("-", "_"): the replaced pattern is a single
character, so a character-wise map is exact. -/
def replaceDash (s : String) : String :=
  String.mk (s.data.map (fun c => if c = '-' then '_' else c))

/-- CSV filename for a period given in API form YYYY-MM. -/
def monthFileName (ymApi : String) : String :=
  "exchange_rates_" ++ replaceDash ymApi ++ ".csv"

/-- CSV filename for a period given as a 6-digit YYYYMM date key
(date_key[:4] and date_key[4:]). -/
def dateKeyFileName (dateKey : String) : String :=
  "exchange_rates_" ++ String.mk (dateKey.data.take 4) ++ "_" ++
    String.mk (dateKey.data.drop 4) ++ ".csv"

/-- Outcome of one acquisition entry point: the returned paths or the
raised error, the filesystem afterwards, and how many IMF API requests
were issued. -/
structure FetchResult where
  outcome : Except String (List String)
  fs : FS
  apiCalls : ℕ

/-- Embeds fetch_rates_for_month.  The network is the oracle apiData,
standing for get_currency_data_from_imf composed with
process_xml_to_dataframe (none models a failed call, an empty frame a
parse failure).  An existing CSV without force returns before any
network activity. -/
def fetchRatesForMonth (ymApi : String) (force : Bool)
    (apiData : Option (List Row)) (fs : FS) : FetchResult :=
  let path := monthFileName ymApi
  if (fs.lookup path).isSome ∧ ¬force then ⟨.ok [path], fs, 0⟩
  else
    match apiData with
    | none => ⟨.error ("IMF API returned no data for " ++ ymApi), fs, 1⟩
    | some df =>
        if df = [] then
          ⟨.error ("Parsed DataFrame is empty for " ++ ymApi), fs, 1⟩
        else ⟨.ok [path], fs.write path (.csv df), 1⟩

/-- The Date keys of a multi-month frame in groupby order (ascending,
deduplicated). -/
def uniqueDates (df : List Row) : List String :=
  List.insertionSort (fun a b => a ≤ b) ((df.map Row.date).dedup)

/-- Embeds fetch_rates_for_range: one ranged API request, then the
response is split by Date key; a month whose CSV already exists is
skipped (not rewritten) unless force is set. -/
def fetchRatesForRange (startApi endApi : String) (force : Bool)
    (apiData : Option (List Row)) (fs : FS) : FetchResult :=
  match apiData with
  | none =>
      ⟨.error ("IMF API returned no data for " ++ startApi ++ "->" ++ endApi),
        fs, 1⟩
  | some df =>
      if df = [] then
        ⟨.error ("Parsed DataFrame is empty for " ++ startApi ++ "->" ++ endApi),
          fs, 1⟩
      else
        let final := (uniqueDates df).foldl
          (fun (acc : List String × FS) dateKey =>
            let path := dateKeyFileName dateKey
            if (acc.2.lookup path).isSome ∧ ¬force then (acc.1 ++ [path], acc.2)
            else
              (acc.1 ++ [path],
                acc.2.write path (.csv (df.filter (fun r => r.date = dateKey)))))
          ([], fs)
        ⟨.ok final.1, final.2, 1⟩

/-- The per-month split of fetch_rates_for_range never touches a path
that already exists when force is off. -/
theorem fetchRatesForRange_preserves (startApi endApi : String)
    (apiData : Option (List Row)) (fs : FS) (p : String)
    (hp : (fs.lookup p).isSome) :
    (fetchRatesForRange startApi endApi false apiData fs).fs.lookup p =
      fs.lookup p := by
  unfold fetchRatesForRange
  cases apiData with
  | none => rfl
  | some df =>
      by_cases hdf : df = []
      · simp [hdf]
      · simp only [hdf, if_false]
        have key : ∀ (dates : List String) (acc : List String × FS),
            acc.2.lookup p = fs.lookup p →
            (dates.foldl (fun (acc : List String × FS) dateKey =>
              let path := dateKeyFileName dateKey
              if (acc.2.lookup path).isSome ∧ ¬false then (acc.1 ++ [path], acc.2)
              else
                (acc.1 ++ [path],
                  acc.2.write path
                    (.csv (df.filter (fun r => r.date = dateKey))))) acc).2.lookup p =
              fs.lookup p := by
          intro dates
          induction dates with
          | nil => intro acc h; exact h
          | cons d rest ih =>
              intro acc h
              simp only [List.foldl_cons]
              by_cases hex : ((acc.2.lookup (dateKeyFileName d)).isSome ∧ ¬false)
              · rw [if_pos hex]
                exact ih _ h
              · rw [if_neg hex]
                apply ih
                rw [FS.lookup_write]
                by_cases hpd : p = dateKeyFileName d
                · exfalso
                  apply hex
                  refine ⟨?_, by simp⟩
                  rw [← hpd, h]
                  exact hp
                · rw [if_neg hpd]; exact h
        exact key (uniqueDates df) ([], fs) rfl


/-! ## Claims -/

/-- C1, counterexample: a freshly fetched month whose frame has one
country (at most 50) is NOT saved to its persisted location — the
filesystem is untouched — although it is flagged as suspicious and
counted as failed.  This refutes the claim that such a period is still
saved. -/
theorem handleFetchedData_low_count_not_saved :
    (handleFetchedData "2024-01" "2024_01" "exchange_rates_2024_01.csv"
      [⟨"GHA", some "GHS", "202401", some 12, "USD", ""⟩]
      ⟨[], [], 0, 0, 0, []⟩).fs.lookup "exchange_rates_2024_01.csv" = none ∧
    (handleFetchedData "2024-01" "2024_01" "exchange_rates_2024_01.csv"
      [⟨"GHA", some "GHS", "202401", some 12, "USD", ""⟩]
      ⟨[], [], 0, 0, 0, []⟩).suspiciousMonths = ["2024-01"] ∧
    (handleFetchedData "2024-01" "2024_01" "exchange_rates_2024_01.csv"
      [⟨"GHA", some "GHS", "202401", some 12, "USD", ""⟩]
      ⟨[], [], 0, 0, 0, []⟩).monthsFailed = 1 := by
  refine ⟨?_, ?_, ?_⟩ <;> decide

/-- C1, amended: a freshly fetched period whose country count is at most
the threshold 50 is NOT saved — the filesystem is left exactly as it was,
so the fetched dataset is discarded — while the period is appended to
suspicious_months and counted as a failed month. -/
theorem handleFetchedData_suspicious (dateStr monthKey filepath : String)
    (df : List Row) (st : HistRunState)
    (hdf : df ≠ []) (hcard : (countrySet df).card ≤ 50) :
    (handleFetchedData dateStr monthKey filepath df st).fs = st.fs ∧
    (handleFetchedData dateStr monthKey filepath df st).suspiciousMonths =
      st.suspiciousMonths ++ [dateStr] ∧
    (handleFetchedData dateStr monthKey filepath df st).monthsFailed =
      st.monthsFailed + 1 ∧
    (handleFetchedData dateStr monthKey filepath df st).currentRunCountries =
      st.currentRunCountries := by
  unfold handleFetchedData
  rw [if_neg hdf, if_neg (by omega : ¬ 50 < (countrySet df).card)]
  exact ⟨rfl, rfl, rfl, rfl⟩

/-- C1, witness for the amended theorem at a concrete one-country fetch. -/
theorem handleFetchedData_suspicious_witness :
    (handleFetchedData "2024-02" "2024_02" "exchange_rates_2024_02.csv"
      [⟨"NGA", some "NGN", "202402", some 1, "USD", ""⟩]
      ⟨[], ["2023-12"], 1, 2, 3, []⟩).suspiciousMonths =
        ["2023-12"] ++ ["2024-02"] ∧
    (handleFetchedData "2024-02" "2024_02" "exchange_rates_2024_02.csv"
      [⟨"NGA", some "NGN", "202402", some 1, "USD", ""⟩]
      ⟨[], ["2023-12"], 1, 2, 3, []⟩).monthsFailed = 3 + 1 ∧
    (handleFetchedData "2024-02" "2024_02" "exchange_rates_2024_02.csv"
      [⟨"NGA", some "NGN", "202402", some 1, "USD", ""⟩]
      ⟨[], ["2023-12"], 1, 2, 3, []⟩).fs = [] := by
  have h := handleFetchedData_suspicious "2024-02" "2024_02"
    "exchange_rates_2024_02.csv"
    [⟨"NGA", some "NGN", "202402", some 1, "USD", ""⟩]
    ⟨[], ["2023-12"], 1, 2, 3, []⟩ (by decide) (by decide)
  exact ⟨h.2.1, h.2.2.1, h.1⟩

/-- C5, counterexample: the backfill flow's tracker update is not
monotone.  A tracker that records countries ALB and BRA for 2020_01 loses
BRA when _update_tracker_from_csvs scans a CSV for that month listing
only ALB: the entry is overwritten, not unioned. -/
theorem tracker_overwrite_shrinks :
    "BRA" ∈ Tracker.get [("2020_01", {"ALB", "BRA"})] "2020_01" ∧
    "BRA" ∉ Tracker.get (updateTrackerFromCsvs [("2020_01", {"ALB", "BRA"})]
      [("2020_01", [⟨"ALB", some "ALL", "202001", some 1, "USD", ""⟩])])
      "2020_01" := by
  constructor <;> decide

/-- C5, amended: the merge loop of fetch_historical_rates_fixed.py is
monotone — after merging a run's observations every period's recorded set
contains its previous value — but the backfill flow's
_update_tracker_from_csvs overwrites a period's entry with exactly the
scanned CSV's country set whenever that set differs from the recorded
one, which can remove previously recorded countries. -/
theorem tracker_update_behaviour (t : Tracker)
    (runCountries : List (String × Finset String)) (k : String) (df : List Row) :
    t.get k ⊆ (mergeTracker t runCountries).get k ∧
    (countrySet df ≠ t.get k →
      (updateTrackerFromCsvs t [(k, df)]).get k = countrySet df) := by
  refine ⟨mergeTracker_mono t runCountries k, ?_⟩
  intro h
  unfold updateTrackerFromCsvs
  simp only [List.foldl_cons, List.foldl_nil]
  rw [if_pos h, Tracker.get_set, if_pos rfl]

/-- C5, witness for the amended theorem at concrete tracker states. -/
theorem tracker_update_behaviour_witness :
    Tracker.get [("2020_01", ({"A"} : Finset String))] "2020_01" ⊆
      Tracker.get (mergeTracker [("2020_01", {"A"})] [("2020_01", {"B"})])
        "2020_01" ∧
    Tracker.get (updateTrackerFromCsvs [("2020_01", ({"A"} : Finset String))]
      [("2020_01", [⟨"C", some "XCD", "202001", some 1, "USD", ""⟩])])
      "2020_01" =
      countrySet [⟨"C", some "XCD", "202001", some 1, "USD", ""⟩] := by
  have h := tracker_update_behaviour [("2020_01", {"A"})] [("2020_01", {"B"})]
    "2020_01" [⟨"C", some "XCD", "202001", some 1, "USD", ""⟩]
  exact ⟨h.1, h.2 (by decide)⟩

/-- C8, counterexample: with one matching country out of three live ones
the reported coverage is the two-decimal rounding 33.33, which differs
from the exact claimed formula value of one third of 100. -/
theorem checkCoverage_rounding_counterexample :
    (countrySet [⟨"A", some "USD", "202401", some 1, "USD", ""⟩] ∩
      ({"A", "B", "C"} : Finset String)).card = 1 ∧
    ({"A", "B", "C"} : Finset String).card = 3 ∧
    (checkCoverage [⟨"A", some "USD", "202401", some 1, "USD", ""⟩]
      {"A", "B", "C"}).coverage_pct = 3333/100 ∧
    (1 : ℚ)/3 * 100 ≠ 3333/100 := by
  refine ⟨by decide, by decide, ?_, by norm_num⟩
  have h1 : (checkCoverage [⟨"A", some "USD", "202401", some 1, "USD", ""⟩]
      ({"A", "B", "C"} : Finset String)).coverage_pct =
      pyRound2 (((countrySet [⟨"A", some "USD", "202401", some 1, "USD", ""⟩] ∩
        ({"A", "B", "C"} : Finset String)).card : ℚ) /
        ((max ({"A", "B", "C"} : Finset String).card 1 : ℕ) : ℚ) * 100) := rfl
  rw [h1,
    show (countrySet [⟨"A", some "USD", "202401", some 1, "USD", ""⟩] ∩
      ({"A", "B", "C"} : Finset String)).card = 1 from by decide,
    show max ({"A", "B", "C"} : Finset String).card 1 = 3 from by decide]
  have hfl : ⌊(1 : ℚ) / 3 * 100 * 100⌋ = 3333 := by
    rw [Int.floor_eq_iff]
    norm_num
  unfold pyRound2 roundHalfEven
  push_cast
  rw [hfl]
  norm_num

/-- C8, amended: the coverage check computes the claimed formula value up
to rounding at two decimal places — for a nonempty live list the reported
percentage is round2 of card of the intersection over card of the live
list times 100 — and it reports exactly 0 when the live list is empty,
with no division by zero. -/
theorem checkCoverage_formula (df : List Row) (imf : Finset String) :
    (imf ≠ ∅ → (checkCoverage df imf).coverage_pct =
      pyRound2 (((countrySet df ∩ imf).card : ℚ) / (imf.card : ℚ) * 100)) ∧
    (imf = ∅ → (checkCoverage df imf).coverage_pct = 0) := by
  constructor
  · intro h
    have hc : imf.card ≠ 0 :=
      Finset.card_ne_zero.mpr (Finset.nonempty_iff_ne_empty.mpr h)
    have hmax : max imf.card 1 = imf.card := by omega
    show pyRound2 (((countrySet df ∩ imf).card : ℚ) /
      ((max imf.card 1 : ℕ) : ℚ) * 100) = _
    rw [hmax]
  · intro h
    subst h
    show pyRound2 (((countrySet df ∩ (∅ : Finset String)).card : ℚ) /
      ((max (∅ : Finset String).card 1 : ℕ) : ℚ) * 100) = 0
    rw [Finset.inter_empty]
    unfold pyRound2 roundHalfEven
    norm_num

/-- C8, witness for the amended theorem: a singleton live list and an
empty one. -/
theorem checkCoverage_formula_witness :
    (({"A"} : Finset String) ≠ ∅ ∧
      (checkCoverage [] {"A"}).coverage_pct =
        pyRound2 (((countrySet [] ∩ ({"A"} : Finset String)).card : ℚ) /
          ((({"A"} : Finset String).card : ℕ) : ℚ) * 100)) ∧
    (checkCoverage [] (∅ : Finset String)).coverage_pct = 0 :=
  ⟨⟨by decide, (checkCoverage_formula [] {"A"}).1 (by decide)⟩,
    (checkCoverage_formula [] ∅).2 rfl⟩


/-- The issues list of a report is empty exactly when none of the
issue-producing findings fired. -/
theorem reportIssues_eq_nil (df : List Row) (imf : Finset String)
    (ey : String) (agg : Finset String) (ra : Option RateAccuracy) :
    reportIssues df imf ey agg ra = [] ↔
      ((checkCoverage df imf).missing_from_csv = ∅ ∧
       checkNullCurrencies df agg = 0 ∧
       checkDuplicates df = 0 ∧
       (checkAnomalousRates df).null_count = 0 ∧
       (checkAnomalousRates df).zero_or_neg_count = 0 ∧
       checkDateCoverage df ey = 0 ∧
       ∀ r, ra = some r → r.mismatchList.length = 0) := by
  unfold reportIssues
  cases ra with
  | none =>
      simp only [List.append_eq_nil, ite_eq_right_iff,
        List.cons_ne_nil, imp_false, not_not, and_assoc]
      constructor
      · rintro ⟨h1, h2, h3, h4, h5, h6, -⟩
        exact ⟨h1, h2, h3, h4, h5, h6, fun r hr => by cases hr⟩
      · rintro ⟨h1, h2, h3, h4, h5, h6, -⟩
        exact ⟨h1, h2, h3, h4, h5, h6, trivial⟩
  | some r =>
      simp only [List.append_eq_nil, ite_eq_right_iff,
        List.cons_ne_nil, imp_false, not_not, not_lt, Nat.le_zero, and_assoc]
      constructor
      · rintro ⟨h1, h2, h3, h4, h5, h6, h7⟩
        refine ⟨h1, h2, h3, h4, h5, h6, fun s hs => ?_⟩
        cases hs
        exact h7
      · rintro ⟨h1, h2, h3, h4, h5, h6, h7⟩
        exact ⟨h1, h2, h3, h4, h5, h6, h7 r rfl⟩

/-- C4, counterexample: a dataset whose only defect is an implausibly
large rate (anomalous-rates check reports a non-empty finding) still
receives overall_status PASS, because only the null-rate and
zero-or-negative counts of check 4 feed the issues list.  This refutes
the claimed FAIL-iff condition. -/
theorem build_report_large_rate_passes :
    (build_report [⟨"A", some "USD", "202401", some 200000, "USD", ""⟩]
      {"A"} "202401" ∅ false [] none).overall_status = "PASS" ∧
    (checkAnomalousRates
      [⟨"A", some "USD", "202401", some 200000, "USD", ""⟩]).implausibly_large_count
      = 1 := by
  constructor <;> decide

/-- C4, amended: overall_status is FAIL exactly when one of these
findings is non-empty: countries missing from the CSV versus the live
list (coverage extras do not count), null-currency rows, duplicate rows,
null rates, zero-or-negative rates (implausibly large or small rates do
not count), wrong date stamps, or live-rate mismatches when the rate
check ran; otherwise it is PASS.  The month-over-month input never
changes overall_status. -/
theorem build_report_status_iff (df : List Row) (imf : Finset String)
    (ey : String) (agg : Finset String) (includeRateCheck : Bool)
    (imfRates : List (String × ℚ)) (mom mom2 : Option ℕ) :
    ((build_report df imf ey agg includeRateCheck imfRates mom).overall_status =
        "FAIL" ↔
      ((checkCoverage df imf).missing_from_csv ≠ ∅ ∨
       checkNullCurrencies df agg ≠ 0 ∨
       checkDuplicates df ≠ 0 ∨
       (checkAnomalousRates df).null_count ≠ 0 ∨
       (checkAnomalousRates df).zero_or_neg_count ≠ 0 ∨
       checkDateCoverage df ey ≠ 0 ∨
       (∃ r, (if includeRateCheck then
           checkRateAccuracy df imfRates defaultTolerance else none) = some r ∧
         r.mismatchList.length ≠ 0))) ∧
    (build_report df imf ey agg includeRateCheck imfRates mom).overall_status =
      (build_report df imf ey agg includeRateCheck imfRates mom2).overall_status := by
  refine ⟨?_, rfl⟩
  have hstat : (build_report df imf ey agg includeRateCheck imfRates
      mom).overall_status =
      if reportIssues df imf ey agg
        (if includeRateCheck then
          checkRateAccuracy df imfRates defaultTolerance else none) = []
      then "PASS" else "FAIL" := rfl
  by_cases hnil : reportIssues df imf ey agg
      (if includeRateCheck then
        checkRateAccuracy df imfRates defaultTolerance else none) = []
  · rw [hstat, if_pos hnil]
    have hcond := (reportIssues_eq_nil df imf ey agg _).mp hnil
    constructor
    · intro h
      exact absurd h (by decide)
    · rintro (h | h | h | h | h | h | ⟨r, hr, hlen⟩)
      · exact absurd hcond.1 h
      · exact absurd hcond.2.1 h
      · exact absurd hcond.2.2.1 h
      · exact absurd hcond.2.2.2.1 h
      · exact absurd hcond.2.2.2.2.1 h
      · exact absurd hcond.2.2.2.2.2.1 h
      · exact absurd (hcond.2.2.2.2.2.2 r hr) hlen
  · rw [hstat, if_neg hnil]
    constructor
    · intro _
      by_contra hnot
      push_neg at hnot
      obtain ⟨h1, h2, h3, h4, h5, h6, h7⟩ := hnot
      exact hnil ((reportIssues_eq_nil df imf ey agg _).mpr
        ⟨h1, h2, h3, h4, h5, h6, fun r hr => h7 r hr⟩)
    · intro _
      rfl

/-- C4, witness for the amended theorem: a clean one-row dataset is PASS
and none of the findings fire, and the month-over-month input does not
change the status. -/
theorem build_report_status_iff_witness :
    ¬ ((build_report [⟨"A", some "USD", "202401", some 1, "USD", ""⟩]
        {"A"} "202401" ∅ false [] none).overall_status = "FAIL") ∧
    (build_report [⟨"A", some "USD", "202401", some 1, "USD", ""⟩]
        {"A"} "202401" ∅ false [] none).overall_status =
      (build_report [⟨"A", some "USD", "202401", some 1, "USD", ""⟩]
        {"A"} "202401" ∅ false [] (some 7)).overall_status := by
  have h := build_report_status_iff
    [⟨"A", some "USD", "202401", some 1, "USD", ""⟩]
    {"A"} "202401" ∅ false [] none (some 7)
  refine ⟨fun hf => ?_, h.2⟩
  rcases h.1.mp hf with hc | hc | hc | hc | hc | hc | ⟨r, hr, -⟩
  · exact hc (by decide)
  · exact hc (by decide)
  · exact hc (by decide)
  · exact hc (by decide)
  · exact hc (by decide)
  · exact hc (by decide)
  · cases hr


/-- Arithmetic core for the cross-validation accuracy relation: with at
least one checked rate and at most a million of them, the 4-decimal
rounded accuracy is 100 exactly when there is no mismatch. -/
theorem accuracy_pct_iff_aux (c m k : ℕ) (htot : c = m + k) (h1 : 0 < c)
    (h2 : c ≤ 1000000) :
    (pyRound4 ((m : ℚ) / ((max c 1 : ℕ) : ℚ) * 100) = 100 ↔ k = 0) := by
  have hmax : max c 1 = c := by omega
  rw [hmax]
  have hcQ : (0:ℚ) < (c:ℚ) := by exact_mod_cast h1
  constructor
  · intro hacc
    by_contra hk
    have hmle : m + 1 ≤ c := by omega
    have hmleQ : (m:ℚ) + 1 ≤ (c:ℚ) := by exact_mod_cast hmle
    have hcle : (c:ℚ) ≤ 1000000 := by exact_mod_cast h2
    have hx : (m:ℚ)/(c:ℚ)*100 ≤ 100 - 100/(c:ℚ) := by
      rw [div_mul_eq_mul_div, div_le_iff₀ hcQ]
      have hexp : (100 - 100/(c:ℚ))*(c:ℚ) = 100*(c:ℚ) - 100 := by
        field_simp
      rw [hexp]
      linarith
    have hbound : 1/10000 ≤ 100/(c:ℚ) := by
      rw [div_le_div_iff₀ (by norm_num) hcQ]
      linarith
    have hround : pyRound4 ((m:ℚ)/(c:ℚ)*100) ≤ (m:ℚ)/(c:ℚ)*100 + 1/20000 := by
      unfold pyRound4
      rw [div_le_iff₀ (by norm_num : (0:ℚ) < 10000)]
      have hexp : ((m:ℚ)/(c:ℚ)*100 + 1/20000) * 10000 =
          ((m:ℚ)/(c:ℚ)*100)*10000 + 1/2 := by ring
      rw [hexp]
      exact roundHalfEven_le (((m:ℚ)/(c:ℚ)*100) * 10000)
    rw [hacc] at hround
    linarith
  · intro hk0
    have hmc : m = c := by omega
    have hone : (m:ℚ)/(c:ℚ)*100 = 100 := by
      rw [hmc, div_self (ne_of_gt hcQ), one_mul]
    rw [hone]
    unfold pyRound4
    rw [show ((100:ℚ) * 10000) = ((1000000:ℤ):ℚ) from by norm_num,
      roundHalfEven_intCast]
    norm_num

/-- C7, counterexample: a selection whose only month failed its live
fetch has zero mismatches yet a reported overall accuracy of 0, not 100
(no rate was checked), refuting the claimed equivalence. -/
theorem crossValidate_no_checks_counterexample :
    (crossValidate [.data "2024-01"
        [⟨"A", some "USD", "202401", some 1, "USD", ""⟩] []]
      defaultTolerance).total_mismatches = 0 ∧
    (crossValidate [.data "2024-01"
        [⟨"A", some "USD", "202401", some 1, "USD", ""⟩] []]
      defaultTolerance).overall_accuracy_pct = 0 ∧
    (0 : ℚ) ≠ 100 := by
  refine ⟨by decide, ?_, by norm_num⟩
  have h : (crossValidate [.data "2024-01"
      [⟨"A", some "USD", "202401", some 1, "USD", ""⟩] []]
      defaultTolerance).overall_accuracy_pct =
      pyRound4 (((0:ℕ) : ℚ) / (((1:ℕ)) : ℚ) * 100) := rfl
  rw [h]
  unfold pyRound4 roundHalfEven
  norm_num

/-- C7, amended: provided at least one rate was checked in the selection
and at most a million were (so that 4-decimal rounding cannot lift a
sub-100 ratio to 100), the reported overall accuracy percentage equals
100 exactly when the selection's total mismatch count is 0; with no
checked rates the reported accuracy is 0. -/
theorem crossValidate_accuracy_iff (months : List MonthInput) (tol : ℚ)
    (h1 : 0 < (crossValidate months tol).total_rates_checked)
    (h2 : (crossValidate months tol).total_rates_checked ≤ 1000000) :
    ((crossValidate months tol).overall_accuracy_pct = 100 ↔
      (crossValidate months tol).total_mismatches = 0) := by
  have htot := crossValidate_totals months tol
  have hacc : (crossValidate months tol).overall_accuracy_pct =
      pyRound4 (((crossValidate months tol).total_matches : ℚ) /
        ((max (crossValidate months tol).total_rates_checked 1 : ℕ) : ℚ) *
        100) := rfl
  rw [hacc]
  exact accuracy_pct_iff_aux _ _ _ htot h1 h2

/-- C7, witness: one month with a single zero-rate comparison that
matches, so one rate is checked, no mismatch, and accuracy is 100. -/
theorem crossValidate_accuracy_iff_witness :
    0 < (crossValidate [.data "2024-01"
        [⟨"A", some "USD", "202401", some 0, "USD", ""⟩] [("A", 0)]]
      defaultTolerance).total_rates_checked ∧
    (crossValidate [.data "2024-01"
        [⟨"A", some "USD", "202401", some 0, "USD", ""⟩] [("A", 0)]]
      defaultTolerance).total_rates_checked ≤ 1000000 ∧
    ((crossValidate [.data "2024-01"
        [⟨"A", some "USD", "202401", some 0, "USD", ""⟩] [("A", 0)]]
      defaultTolerance).overall_accuracy_pct = 100 ↔
      (crossValidate [.data "2024-01"
        [⟨"A", some "USD", "202401", some 0, "USD", ""⟩] [("A", 0)]]
      defaultTolerance).total_mismatches = 0) :=
  ⟨by decide, by decide,
    crossValidate_accuracy_iff _ _ (by decide) (by decide)⟩

/-- C6, counterexample: re-running ranged acquisition over a period whose
CSV already exists still issues one IMF API request (the ranged call is
made before any existence check), refuting the no-network-call clause;
the existing file is, however, left byte-for-byte unchanged. -/
theorem fetchRange_existing_still_calls :
    (fetchRatesForRange "2024-01" "2024-01" false
      (some [⟨"A", some "USD", "202401", some 1, "USD", ""⟩])
      [("exchange_rates_2024_01.csv", .bytes "old")]).apiCalls = 1 ∧
    (fetchRatesForRange "2024-01" "2024-01" false
      (some [⟨"A", some "USD", "202401", some 1, "USD", ""⟩])
      [("exchange_rates_2024_01.csv", .bytes "old")]).fs.lookup
        "exchange_rates_2024_01.csv" = some (.bytes "old") := by
  constructor <;> decide

/-- C6, amended: single-month acquisition for an existing period without
force performs no network call and returns with the filesystem
untouched; ranged acquisition always issues exactly one ranged network
call but leaves every already-existing file byte-for-byte unchanged
(its per-month skip branch never rewrites an existing CSV), so no
duplicate rows are added either way. -/
theorem fetch_skip_behaviour :
    (∀ (ymApi : String) (apiData : Option (List Row)) (fs : FS),
      (fs.lookup (monthFileName ymApi)).isSome →
        fetchRatesForMonth ymApi false apiData fs =
          ⟨.ok [monthFileName ymApi], fs, 0⟩) ∧
    (∀ (startApi endApi : String) (apiData : Option (List Row)) (fs : FS),
      (fetchRatesForRange startApi endApi false apiData fs).apiCalls = 1 ∧
      ∀ p, (fs.lookup p).isSome →
        (fetchRatesForRange startApi endApi false apiData fs).fs.lookup p =
          fs.lookup p) := by
  constructor
  · intro ym api fs h
    unfold fetchRatesForMonth
    rw [if_pos ⟨h, by simp⟩]
  · intro sApi eApi api fs
    refine ⟨?_, fun p hp => fetchRatesForRange_preserves sApi eApi api fs p hp⟩
    unfold fetchRatesForRange
    cases api with
    | none => rfl
    | some df =>
        cases df with
        | nil => rfl
        | cons r rest => rfl

/-- C6, witness: a concrete filesystem holding the period's CSV — the
month path returns unchanged with zero calls, the range path preserves
the file and issues one call. -/
theorem fetch_skip_behaviour_witness :
    fetchRatesForMonth "2024-01" false none
        [("exchange_rates_2024_01.csv", .bytes "old")] =
      ⟨.ok ["exchange_rates_2024_01.csv"],
        [("exchange_rates_2024_01.csv", .bytes "old")], 0⟩ ∧
    (fetchRatesForRange "2024-01" "2024-02" false none
        [("exchange_rates_2024_01.csv", .bytes "old")]).fs.lookup
        "exchange_rates_2024_01.csv" = some (.bytes "old") := by
  constructor
  · have h := fetch_skip_behaviour.1 "2024-01" none
      [("exchange_rates_2024_01.csv", .bytes "old")] (by decide)
    exact h
  · have h := (fetch_skip_behaviour.2 "2024-01" "2024-02" none
      [("exchange_rates_2024_01.csv", .bytes "old")]).2
      "exchange_rates_2024_01.csv" (by decide)
    rw [h]
    decide


/-- C2, counterexample: a successfully processed batch whose manifest
names a partners file that does not exist on disk leaves no copy of that
entry under the batch archive (the copy loop silently skips missing
paths), refuting the claim that every files entry ends up archived.  The
other referenced files are archived as claimed. -/
theorem runCore_missing_partner_not_archived :
    ∃ fs2, runCoreProcessing "hot/M.json"
        [("hot/M.json", .manifestFile ⟨"B1", "t0", "READY_FOR_PROCESSING",
            "pre/missing.csv", "pre/units.csv", "pre/forex.csv", []⟩),
         ("pre/units.csv", .bytes "u"), ("pre/forex.csv", .csv [])] "t1" =
      .ok fs2 ∧
    fs2.lookup "4_archive/B1/missing.csv" = none ∧
    fs2.lookup "4_archive/B1/units.csv" = some (.bytes "u") ∧
    fs2.lookup "pre/units.csv" = none := by
  refine ⟨_, rfl, ?_, ?_, ?_⟩ <;> decide

/-- C2, amended: after a successful run, no manifest-referenced file
(manifest path, files entries, existing raw_data entries) remains at its
original path, every one of them that EXISTED when the run started has a
copy under the batch archive, and the processed output artifact is
present — provided no referenced original already lives at a batch
archive destination, at the output path, or at the success-log path.  A
files entry that never existed is skipped by the copy loop and gets no
archive copy. -/
theorem runCoreProcessing_archives (manifestPath : String) (fs : FS)
    (ts : String) (m : Manifest)
    (hman : fs.lookup manifestPath = some (.manifestFile m))
    (hforex : (fs.lookup m.forex).isSome)
    (hdisj : ∀ f ∈ allFiles manifestPath m fs,
      ∀ g ∈ allFiles manifestPath m fs,
      f ≠ destPath (archiveDir m.batch_id) g)
    (hout : ∀ f ∈ allFiles manifestPath m fs, f ≠ outputPath m.batch_id)
    (hsl : ∀ f ∈ allFiles manifestPath m fs, f ≠ successLogPath m.batch_id) :
    ∃ fs2, runCoreProcessing manifestPath fs ts = .ok fs2 ∧
      (∀ f ∈ allFiles manifestPath m fs, fs2.lookup f = none) ∧
      (∀ f ∈ allFiles manifestPath m fs, (fs.lookup f).isSome →
        (fs2.lookup (destPath (archiveDir m.batch_id) f)).isSome) ∧
      (fs2.lookup (outputPath m.batch_id)).isSome := by
  obtain ⟨d, hd⟩ := Option.isSome_iff_exists.mp hforex
  have htr : transformData m fs ts = .ok (.processed d ts) := by
    unfold transformData; rw [hd]
  refine ⟨(removeFiles (allFiles manifestPath m fs)
      (copyToFolder (allFiles manifestPath m fs) (archiveDir m.batch_id)
        (fs.write (outputPath m.batch_id) (.processed d ts)))).write
      (successLogPath m.batch_id) (.successLog m.batch_id ts),
    ?_, ?_, ?_, ?_⟩
  · unfold runCoreProcessing
    simp only [hman, htr]
  · intro f hf
    rw [FS.lookup_write, if_neg (hsl f hf), removeFiles_lookup, if_pos hf]
  · intro f hf hex
    rw [FS.lookup_write]
    by_cases hps : destPath (archiveDir m.batch_id) f = successLogPath m.batch_id
    · rw [if_pos hps]; simp
    · rw [if_neg hps, removeFiles_lookup,
        if_neg (fun hmem => hdisj _ hmem f hf rfl)]
      apply copyToFolder_copies _ _ _ f hf hdisj
      rw [FS.lookup_write, if_neg (hout f hf)]
      exact hex
  · rw [FS.lookup_write]
    by_cases hps : outputPath m.batch_id = successLogPath m.batch_id
    · rw [if_pos hps]; simp
    · rw [if_neg hps, removeFiles_lookup,
        if_neg (fun hmem => hout _ hmem rfl)]
      apply copyToFolder_isSome
      rw [FS.lookup_write, if_pos rfl]
      simp

/-- C2, witness for the amended theorem: a two-file manifest whose
referenced files all exist; everything is archived and the originals are
gone. -/
theorem runCoreProcessing_archives_witness :
    ∃ fs2, runCoreProcessing "hot/W.json"
        [("hot/W.json", .manifestFile ⟨"B2", "t0", "READY_FOR_PROCESSING",
            "pre/partners.csv", "pre/units.csv", "pre/forex.csv", []⟩),
         ("pre/partners.csv", .bytes "p"), ("pre/units.csv", .bytes "u"),
         ("pre/forex.csv", .csv [])] "t1" = .ok fs2 ∧
      (∀ f ∈ allFiles "hot/W.json"
          ⟨"B2", "t0", "READY_FOR_PROCESSING",
            "pre/partners.csv", "pre/units.csv", "pre/forex.csv", []⟩
          [("hot/W.json", .manifestFile ⟨"B2", "t0", "READY_FOR_PROCESSING",
              "pre/partners.csv", "pre/units.csv", "pre/forex.csv", []⟩),
           ("pre/partners.csv", .bytes "p"), ("pre/units.csv", .bytes "u"),
           ("pre/forex.csv", .csv [])],
        fs2.lookup f = none ∧
        (fs2.lookup (destPath (archiveDir "B2") f)).isSome) ∧
      (fs2.lookup (outputPath "B2")).isSome := by
  obtain ⟨fs2, hrun, hgone, hcopy, hout⟩ := runCoreProcessing_archives
    "hot/W.json"
    [("hot/W.json", .manifestFile ⟨"B2", "t0", "READY_FOR_PROCESSING",
        "pre/partners.csv", "pre/units.csv", "pre/forex.csv", []⟩),
     ("pre/partners.csv", .bytes "p"), ("pre/units.csv", .bytes "u"),
     ("pre/forex.csv", .csv [])] "t1"
    ⟨"B2", "t0", "READY_FOR_PROCESSING",
      "pre/partners.csv", "pre/units.csv", "pre/forex.csv", []⟩
    (by decide) (by decide) (by decide) (by decide) (by decide)
  have hex : ∀ f ∈ allFiles "hot/W.json"
      ⟨"B2", "t0", "READY_FOR_PROCESSING",
        "pre/partners.csv", "pre/units.csv", "pre/forex.csv", []⟩
      [("hot/W.json", .manifestFile ⟨"B2", "t0", "READY_FOR_PROCESSING",
          "pre/partners.csv", "pre/units.csv", "pre/forex.csv", []⟩),
       ("pre/partners.csv", .bytes "p"), ("pre/units.csv", .bytes "u"),
       ("pre/forex.csv", .csv [])],
      (FS.lookup [("hot/W.json",
          .manifestFile ⟨"B2", "t0", "READY_FOR_PROCESSING",
            "pre/partners.csv", "pre/units.csv", "pre/forex.csv", []⟩),
        ("pre/partners.csv", .bytes "p"), ("pre/units.csv", .bytes "u"),
        ("pre/forex.csv", .csv [])] f).isSome := by decide
  exact ⟨fs2, hrun, fun f hf => ⟨hgone f hf, hcopy f hf (hex f hf)⟩, hout⟩

/-- C3, confirmed: when the transform raises (the manifest's forex file
is missing), the processor copies every existing manifest-referenced file
into the batch-keyed error folder, writes a structured error log holding
the batch id, a timestamp and the error detail, leaves every original
exactly as it was (nothing is deleted), and re-raises the original
error — provided no referenced original already lives at an error-folder
destination or at the error-log path. -/
theorem runCoreProcessing_quarantine (manifestPath : String) (fs : FS)
    (ts : String) (m : Manifest)
    (hman : fs.lookup manifestPath = some (.manifestFile m))
    (hforex : fs.lookup m.forex = none)
    (hlog : ∀ f ∈ allFiles manifestPath m fs, f ≠ errorLogPath m.batch_id)
    (hdisj : ∀ f ∈ allFiles manifestPath m fs,
      ∀ g ∈ allFiles manifestPath m fs,
      f ≠ destPath (errorDir m.batch_id) g) :
    ∃ fs2, runCoreProcessing manifestPath fs ts =
        .error ("Forex file not found: " ++ m.forex, fs2) ∧
      (∀ f ∈ allFiles manifestPath m fs, fs2.lookup f = fs.lookup f) ∧
      (∀ f ∈ allFiles manifestPath m fs, (fs.lookup f).isSome →
        (fs2.lookup (destPath (errorDir m.batch_id) f)).isSome) ∧
      fs2.lookup (errorLogPath m.batch_id) =
        some (.errLog m.batch_id ts ("Forex file not found: " ++ m.forex)) := by
  have htr : transformData m fs ts =
      .error ("Forex file not found: " ++ m.forex) := by
    unfold transformData; rw [hforex]
  refine ⟨(copyToFolder (allFiles manifestPath m fs) (errorDir m.batch_id)
      fs).write (errorLogPath m.batch_id)
      (.errLog m.batch_id ts ("Forex file not found: " ++ m.forex)),
    ?_, ?_, ?_, ?_⟩
  · unfold runCoreProcessing
    simp only [hman, htr]
  · intro f hf
    rw [FS.lookup_write, if_neg (hlog f hf)]
    exact copyToFolder_lookup_other _ _ _ _ (fun g hg => hdisj f hf g hg)
  · intro f hf hex
    rw [FS.lookup_write]
    by_cases hpe : destPath (errorDir m.batch_id) f = errorLogPath m.batch_id
    · rw [if_pos hpe]; simp
    · rw [if_neg hpe]
      exact copyToFolder_copies _ _ fs f hf hdisj hex
  · rw [FS.lookup_write, if_pos rfl]

/-- C3, witness: a batch whose forex file is missing; the two existing
referenced files survive in place and are copied to quarantine, and the
error log is written. -/
theorem runCoreProcessing_quarantine_witness :
    ∃ fs2, runCoreProcessing "hot/Q.json"
        [("hot/Q.json", .manifestFile ⟨"B3", "t0", "READY_FOR_PROCESSING",
            "pre/partners.csv", "pre/units.csv", "pre/forex.csv", []⟩),
         ("pre/partners.csv", .bytes "p"), ("pre/units.csv", .bytes "u")]
        "t1" =
      .error ("Forex file not found: " ++ "pre/forex.csv", fs2) ∧
      fs2.lookup "pre/partners.csv" = some (.bytes "p") ∧
      (fs2.lookup (destPath (errorDir "B3") "pre/partners.csv")).isSome ∧
      fs2.lookup (errorLogPath "B3") =
        some (.errLog "B3" "t1" ("Forex file not found: " ++ "pre/forex.csv")) := by
  obtain ⟨fs2, hrun, horig, hcopy, hlog⟩ := runCoreProcessing_quarantine
    "hot/Q.json"
    [("hot/Q.json", .manifestFile ⟨"B3", "t0", "READY_FOR_PROCESSING",
        "pre/partners.csv", "pre/units.csv", "pre/forex.csv", []⟩),
     ("pre/partners.csv", .bytes "p"), ("pre/units.csv", .bytes "u")] "t1"
    ⟨"B3", "t0", "READY_FOR_PROCESSING",
      "pre/partners.csv", "pre/units.csv", "pre/forex.csv", []⟩
    (by decide) (by decide) (by decide) (by decide)
  refine ⟨fs2, hrun, ?_, ?_, hlog⟩
  · rw [horig "pre/partners.csv" (by decide)]
    decide
  · exact hcopy "pre/partners.csv" (by decide) (by decide)


theorem resolve_result_eq (codes : List String) (cache : CurrencyCache)
    (api : String → AttemptOracle) :
    (resolveCurrencyCodes codes cache api).result =
      (firstPass cache codes).1 ++ fetchPass api (firstPass cache codes).2 := by
  unfold resolveCurrencyCodes
  by_cases h : (firstPass cache codes).2 = [] <;> simp [h, fetchPass]

theorem resolve_toFetch_eq (codes : List String) (cache : CurrencyCache)
    (api : String → AttemptOracle) :
    (resolveCurrencyCodes codes cache api).toFetch =
      (firstPass cache codes).2 := by
  unfold resolveCurrencyCodes
  by_cases h : (firstPass cache codes).2 = [] <;> simp [h]

theorem resolve_cache_eq (codes : List String) (cache : CurrencyCache)
    (api : String → AttemptOracle) :
    (resolveCurrencyCodes codes cache api).cache =
      cache ++ fetchPass api (firstPass cache codes).2 := by
  unfold resolveCurrencyCodes
  by_cases h : (firstPass cache codes).2 = [] <;> simp [h, fetchPass]

/-- C9, confirmed: every requested code is resolved from the static
override table first (its value wins and the code is never queued), then
from the cache by membership; only codes in neither are sent to the
external lookup, whose per-code retry loop makes at most 3 attempts with
strictly increasing backoff sleeps, and the fetched value — including the
unresolved marker when every attempt failed — is written into the cache. -/
theorem resolveCurrencyCodes_spec (codes : List String)
    (cache : CurrencyCache) (api : String → AttemptOracle) :
    (∀ code v, code ∈ codes → overrideLookup code = some v →
      (code, some v) ∈ (resolveCurrencyCodes codes cache api).result ∧
      code ∉ (resolveCurrencyCodes codes cache api).toFetch) ∧
    (∀ code v, code ∈ codes → overrideLookup code = none →
      dictLookup cache code = some v →
      (code, v) ∈ (resolveCurrencyCodes codes cache api).result ∧
      code ∉ (resolveCurrencyCodes codes cache api).toFetch) ∧
    (∀ code, code ∈ codes → overrideLookup code = none →
      dictLookup cache code = none →
      code ∈ (resolveCurrencyCodes codes cache api).toFetch ∧
      (code, (fetchCurrencyFromApi (api code)).1) ∈
        (resolveCurrencyCodes codes cache api).result ∧
      dictLookup (resolveCurrencyCodes codes cache api).cache code =
        some ((fetchCurrencyFromApi (api code)).1)) ∧
    (∀ att : AttemptOracle, (fetchCurrencyFromApi att).2.length + 1 ≤ 3 ∧
      List.Chain' (fun a b => a < b) (fetchCurrencyFromApi att).2) ∧
    (∀ code, code ∈ codes → overrideLookup code = none →
      dictLookup cache code = none →
      api code 0 = none → api code 1 = none → api code 2 = none →
      dictLookup (resolveCurrencyCodes codes cache api).cache code =
        some none) := by
  have hfetchmem : ∀ code, code ∈ codes → overrideLookup code = none →
      dictLookup cache code = none → code ∈ (firstPass cache codes).2 :=
    fun code h1 h2 h3 =>
      (firstPass_toFetch_mem cache codes code).mpr ⟨h1, h2, h3⟩
  have hcacheval : ∀ code, code ∈ codes → overrideLookup code = none →
      dictLookup cache code = none →
      dictLookup (resolveCurrencyCodes codes cache api).cache code =
        some ((fetchCurrencyFromApi (api code)).1) := by
    intro code h1 h2 h3
    rw [resolve_cache_eq, dictLookup_append,
      dictLookup_fetchPass_mem api _ code (hfetchmem code h1 h2 h3)]
  refine ⟨?_, ?_, ?_, ?_, ?_⟩
  · intro code v hc ho
    constructor
    · rw [resolve_result_eq]
      exact List.mem_append_left _
        ((firstPass_result_mem cache codes code (some v)).mpr
          ⟨hc, Or.inl ⟨v, ho, rfl⟩⟩)
    · rw [resolve_toFetch_eq]
      intro hmem
      rcases (firstPass_toFetch_mem cache codes code).mp hmem with ⟨-, h2, -⟩
      rw [ho] at h2
      cases h2
  · intro code v hc ho hcv
    constructor
    · rw [resolve_result_eq]
      exact List.mem_append_left _
        ((firstPass_result_mem cache codes code v).mpr
          ⟨hc, Or.inr ⟨ho, hcv⟩⟩)
    · rw [resolve_toFetch_eq]
      intro hmem
      rcases (firstPass_toFetch_mem cache codes code).mp hmem with ⟨-, -, h3⟩
      rw [hcv] at h3
      cases h3
  · intro code hc ho hcv
    refine ⟨?_, ?_, hcacheval code hc ho hcv⟩
    · rw [resolve_toFetch_eq]
      exact hfetchmem code hc ho hcv
    · rw [resolve_result_eq]
      exact List.mem_append_right _
        ((fetchPass_mem api _ code _).mpr ⟨hfetchmem code hc ho hcv, rfl⟩)
  · intro att
    unfold fetchCurrencyFromApi
    cases h0 : att 0 with
    | some c => simp
    | none =>
        cases h1 : att 1 with
        | some c => simp
        | none =>
            cases h2 : att 2 with
            | some c => simp [List.chain'_cons]; norm_num
            | none => simp [List.chain'_cons]; norm_num
  · intro code hc ho hcv h0 h1 h2
    have h := hcacheval code hc ho hcv
    rw [h]
    unfold fetchCurrencyFromApi
    rw [h0, h1, h2]

/-- C9, witness: a three-code batch exercising the override path
(Curacao maps to XCG without a lookup), the cache path, and a code whose
three attempts all fail and is cached as unresolved; plus the backoff
shape of a concrete always-failing oracle. -/
theorem resolveCurrencyCodes_spec_witness :
    ("CUW", some "XCG") ∈ (resolveCurrencyCodes ["CUW", "AAA", "BBB"]
      [("AAA", some "AAD")]
      (fun code _ => if code = "BBB" then none else some "XXX")).result ∧
    ("AAA", some "AAD") ∈ (resolveCurrencyCodes ["CUW", "AAA", "BBB"]
      [("AAA", some "AAD")]
      (fun code _ => if code = "BBB" then none else some "XXX")).result ∧
    "BBB" ∈ (resolveCurrencyCodes ["CUW", "AAA", "BBB"]
      [("AAA", some "AAD")]
      (fun code _ => if code = "BBB" then none else some "XXX")).toFetch ∧
    dictLookup (resolveCurrencyCodes ["CUW", "AAA", "BBB"]
      [("AAA", some "AAD")]
      (fun code _ => if code = "BBB" then none else some "XXX")).cache "BBB" =
      some none ∧
    (fetchCurrencyFromApi (fun _ => none)).2.length + 1 ≤ 3 ∧
    List.Chain' (fun a b => a < b) (fetchCurrencyFromApi (fun _ => none)).2 := by
  have h := resolveCurrencyCodes_spec ["CUW", "AAA", "BBB"]
    [("AAA", some "AAD")]
    (fun code _ => if code = "BBB" then none else some "XXX")
  refine ⟨(h.1 "CUW" "XCG" (by decide) (by decide)).1,
    (h.2.1 "AAA" (some "AAD") (by decide) (by decide) (by decide)).1,
    (h.2.2.1 "BBB" (by decide) (by decide) (by decide)).1,
    h.2.2.2.2 "BBB" (by decide) (by decide) (by decide) rfl rfl rfl,
    (h.2.2.2.1 (fun _ => none)).1, (h.2.2.2.1 (fun _ => none)).2⟩

/-- C10, confirmed: a code cached with the null (unresolved) marker is
answered from the cache on every later call — membership, not the
truthiness of the cached value, decides — so it is never queued for an
external lookup and its cache entry stays the unresolved marker. -/
theorem cached_unresolved_short_circuit (codes : List String)
    (cache : CurrencyCache) (api : String → AttemptOracle) (code : String)
    (hc : code ∈ codes) (hov : overrideLookup code = none)
    (hcache : dictLookup cache code = some none) :
    (code, (none : Option String)) ∈
      (resolveCurrencyCodes codes cache api).result ∧
    code ∉ (resolveCurrencyCodes codes cache api).toFetch ∧
    dictLookup (resolveCurrencyCodes codes cache api).cache code =
      some none := by
  have hnf : code ∉ (firstPass cache codes).2 := by
    intro hmem
    rcases (firstPass_toFetch_mem cache codes code).mp hmem with ⟨-, -, h3⟩
    rw [hcache] at h3
    cases h3
  refine ⟨?_, ?_, ?_⟩
  · rw [resolve_result_eq]
    exact List.mem_append_left _
      ((firstPass_result_mem cache codes code none).mpr
        ⟨hc, Or.inr ⟨hov, hcache⟩⟩)
  · rw [resolve_toFetch_eq]
    exact hnf
  · rw [resolve_cache_eq, dictLookup_append,
      dictLookup_fetchPass_not_mem api _ code hnf]
    exact hcache

/-- C10, witness: a code cached as unresolved is returned as unresolved
without being queued, with an oracle that would succeed if consulted. -/
theorem cached_unresolved_short_circuit_witness :
    ("ZZZ", (none : Option String)) ∈
      (resolveCurrencyCodes ["ZZZ"] [("ZZZ", none)]
        (fun _ _ => some "XXX")).result ∧
    "ZZZ" ∉ (resolveCurrencyCodes ["ZZZ"] [("ZZZ", none)]
      (fun _ _ => some "XXX")).toFetch ∧
    dictLookup (resolveCurrencyCodes ["ZZZ"] [("ZZZ", none)]
      (fun _ _ => some "XXX")).cache "ZZZ" = some none :=
  cached_unresolved_short_circuit ["ZZZ"] [("ZZZ", none)]
    (fun _ _ => some "XXX") "ZZZ" (by decide) (by decide) (by decide)

end IMFPipeline
